import Mathlib

/-!
Shallow embedding of the taxana tax core:
`src/lib/services/tax-calculator.ts` (FIFO lot ledger, classifier,
aggregator) and the price service (cache waterfall `checkCache` /
`getTokenPrice`).

Numbers are embedded as exact rationals (`ℚ`); the JavaScript `Map` of
FIFO lot queues is a total function `String → List TokenLot` whose
default value `[]` matches `tokenLots.get(tok) || []`; nullable fields
are `Option`; the stable JavaScript `Array.prototype.sort` by timestamp
is embedded as the (stable) insertion sort by timestamp, which produces
the same, uniquely determined, stably-sorted output.  The price
providers and the cache table are oracle parameters: Birdeye and
DexScreener results are `Option ℚ` (a caught network error and a null
body are both `none`, exactly as the source collapses them), and the
database is the list of cached rows.
-/

namespace Taxana

/-- Indonesian sell-side tax rate, `TAX_RATES.PPH_SELL = 0.002`. -/
def PPH_SELL : ℚ := 2 / 1000

/-- Indonesian buy-side tax rate, `TAX_RATES.PPN_BUY = 0.0022`. -/
def PPN_BUY : ℚ := 22 / 10000

/-- Structure `TokenLot` from tax-calculator.ts: one FIFO acquisition lot. -/
structure TokenLot where
  tokenAddress : String
  amount : ℚ
  costBasisUsd : ℚ
  costBasisIdr : ℚ
  timestamp : Int
deriving DecidableEq

/-- Input swap record (`Transaction` row from the drizzle schema);
nullable columns are `Option`, decimals are exact rationals, the
timestamp is epoch milliseconds. -/
structure Transaction where
  signature : String
  timestamp : Int
  fromToken : Option String
  fromAmount : Option ℚ
  fromSymbol : Option String
  toToken : Option String
  toAmount : Option ℚ
  toSymbol : Option String
  dex : Option String
deriving DecidableEq

/-- The `'buy' | 'sell'` classification tag. -/
inductive TxType where
  | buy
  | sell
deriving DecidableEq

/-- Structure `TransactionTaxResult` from tax-calculator.ts. -/
structure TransactionTaxResult where
  signature : String
  timestamp : Int
  type : TxType
  fromToken : String
  fromSymbol : String
  fromAmount : ℚ
  toToken : String
  toSymbol : String
  toAmount : ℚ
  dex : String
  fromPriceUsd : ℚ
  toPriceUsd : ℚ
  usdIdrRate : ℚ
  transactionValueUsd : ℚ
  transactionValueIdr : ℚ
  costBasisUsd : ℚ
  costBasisIdr : ℚ
  gainLossUsd : ℚ
  gainLossIdr : ℚ
  pphTax : ℚ
  ppnTax : ℚ
  totalTax : ℚ
deriving DecidableEq

/-- Structure `TaxSummary` from tax-calculator.ts. -/
structure TaxSummary where
  totalTransactions : Nat
  totalBuys : Nat
  totalSells : Nat
  totalBuyValueIdr : ℚ
  totalSellValueIdr : ℚ
  totalGainIdr : ℚ
  totalLossIdr : ℚ
  netGainLossIdr : ℚ
  totalPphTax : ℚ
  totalPpnTax : ℚ
  totalTax : ℚ
  transactions : List TransactionTaxResult
deriving DecidableEq

/-- The `stableTokens` set from the classifier (USDC, USDT). -/
def stableTokens : List String :=
  ["EPjFWdd5AufqSSqeM2qN1xzybapC8G4wEGGkZwyTDt1v",
   "Es9vMFrzaCERmJfrF4H2FYD4KCoNkY11McCe8BenwNYB"]

/-- The wrapped-SOL address from the classifier. -/
def solToken : String := "So11111111111111111111111111111111111111112"

/-- Test `stableTokens.has(t) || t === solToken`: the "base token" test. -/
def isStableOrSol (t : String) : Bool :=
  stableTokens.contains t || t == solToken

/-- Lookup `prices.get(tok)?.priceUsd || 0`: a missing or null price is 0. -/
def priceOrZero (p : Option ℚ) : ℚ := p.getD 0

/-- Result of one FIFO consumption (`while` loop, lines 196-215 /
248-265 of tax-calculator.ts): the accumulated USD and IDR cost basis,
the queue left behind, and the final value of `remainingToSell`
(the unmatched shortfall). -/
structure ConsumeResult where
  costUsd : ℚ
  costIdr : ℚ
  lots : List TokenLot
  unmatched : ℚ
deriving DecidableEq

/-- The FIFO consumption loop of tax-calculator.ts:
`while (remainingToSell > 0 && lots.length > 0)` either consumes the
head lot entirely (`lot.amount <= remainingToSell`) or consumes a
fraction of it (`fraction = remainingToSell / lot.amount`) reducing
both the amount and the two cost-basis fields by that fraction. -/
def consume : List TokenLot → ℚ → ConsumeResult
  | [], remaining => ⟨0, 0, [], remaining⟩
  | lot :: rest, remaining =>
    if remaining ≤ 0 then ⟨0, 0, lot :: rest, remaining⟩
    else if lot.amount ≤ remaining then
      let r := consume rest (remaining - lot.amount)
      ⟨lot.costBasisUsd + r.costUsd, lot.costBasisIdr + r.costIdr, r.lots, r.unmatched⟩
    else
      let fraction := remaining / lot.amount
      ⟨lot.costBasisUsd * fraction, lot.costBasisIdr * fraction,
       { lot with
          amount := lot.amount - remaining,
          costBasisUsd := lot.costBasisUsd * (1 - fraction),
          costBasisIdr := lot.costBasisIdr * (1 - fraction) } :: rest,
       0⟩

/-- The ledger's acquisition operation (the lot push of the buy and
swap branches, lines 163-178 / 281-292): append a new lot at the tail
of the token's queue. -/
def recordAcquisition (m : String → List TokenLot) (token : String)
    (amount costBasisUsd costBasisIdr : ℚ) (ts : Int) :
    String → List TokenLot :=
  Function.update m token (m token ++ [⟨token, amount, costBasisUsd, costBasisIdr, ts⟩])

/-- The mutable run state of the `for` loop in `calculateTaxes`. -/
structure CalcState where
  tokenLots : String → List TokenLot
  results : List TransactionTaxResult
  totalBuys : Nat
  totalSells : Nat
  totalBuyValueIdr : ℚ
  totalSellValueIdr : ℚ
  totalGainIdr : ℚ
  totalLossIdr : ℚ
  totalPphTax : ℚ
  totalPpnTax : ℚ

/-- The fresh state at the start of a run: empty queues, zero totals. -/
def initState : CalcState :=
  ⟨fun _ => [], [], 0, 0, 0, 0, 0, 0, 0, 0⟩

/-- One iteration of the `for (const tx of sortedTransactions)` loop of
`calculateTaxes` (lines 124-323): classify the record as buy, sell, or
token-to-token swap, mutate the lot queues, and append one
`TransactionTaxResult`. -/
def processTx (prices : String → Option ℚ) (usdIdrRate : ℚ)
    (s : CalcState) (tx : Transaction) : CalcState :=
  let fromToken := tx.fromToken.getD ""
  let toToken := tx.toToken.getD ""
  let fromAmount := tx.fromAmount.getD 0
  let toAmount := tx.toAmount.getD 0
  let fromPrice := priceOrZero (prices fromToken)
  let toPrice := priceOrZero (prices toToken)
  let transactionValueUsd := toAmount * toPrice
  let transactionValueIdr := transactionValueUsd * usdIdrRate
  let fromIsStableOrSol := isStableOrSol fromToken
  let toIsStableOrSol := isStableOrSol toToken
  let mkResult (type : TxType) (costBasisUsd costBasisIdr gainLossUsd gainLossIdr pphTax ppnTax : ℚ) :
      TransactionTaxResult :=
    ⟨tx.signature, tx.timestamp, type, fromToken, tx.fromSymbol.getD "", fromAmount,
     toToken, tx.toSymbol.getD "", toAmount, tx.dex.getD "unknown",
     fromPrice, toPrice, usdIdrRate, transactionValueUsd, transactionValueIdr,
     costBasisUsd, costBasisIdr, gainLossUsd, gainLossIdr, pphTax, ppnTax, pphTax + ppnTax⟩
  if fromIsStableOrSol && !toIsStableOrSol then
    -- BUY branch
    let costUsd := fromAmount * fromPrice
    let costIdr := costUsd * usdIdrRate
    let ppnTax := transactionValueIdr * PPN_BUY
    { s with
      tokenLots := recordAcquisition s.tokenLots toToken toAmount costUsd costIdr tx.timestamp,
      results := s.results ++ [mkResult TxType.buy 0 0 0 0 0 ppnTax],
      totalBuys := s.totalBuys + 1,
      totalBuyValueIdr := s.totalBuyValueIdr + transactionValueIdr,
      totalPpnTax := s.totalPpnTax + ppnTax }
  else if !fromIsStableOrSol && toIsStableOrSol then
    -- SELL branch
    let c := consume (s.tokenLots fromToken) fromAmount
    let proceedsUsd := fromAmount * fromPrice
    let gainLossUsd := proceedsUsd - c.costUsd
    let gainLossIdr := gainLossUsd * usdIdrRate
    let pphTax := transactionValueIdr * PPH_SELL
    { s with
      tokenLots := Function.update s.tokenLots fromToken c.lots,
      results := s.results ++ [mkResult TxType.sell c.costUsd c.costIdr gainLossUsd gainLossIdr pphTax 0],
      totalSells := s.totalSells + 1,
      totalSellValueIdr := s.totalSellValueIdr + transactionValueIdr,
      totalGainIdr := if gainLossIdr > 0 then s.totalGainIdr + gainLossIdr else s.totalGainIdr,
      totalLossIdr := if gainLossIdr > 0 then s.totalLossIdr else s.totalLossIdr + |gainLossIdr|,
      totalPphTax := s.totalPphTax + pphTax }
  else
    -- token-to-token swap branch
    let c := consume (s.tokenLots fromToken) fromAmount
    let gainLossUsd := transactionValueUsd - c.costUsd
    let gainLossIdr := gainLossUsd * usdIdrRate
    let pphTax := transactionValueIdr * PPH_SELL
    let lots1 := Function.update s.tokenLots fromToken c.lots
    let lots2 := Function.update lots1 toToken
      (lots1 toToken ++ [⟨toToken, toAmount, transactionValueUsd, transactionValueIdr, tx.timestamp⟩])
    { s with
      tokenLots := lots2,
      results := s.results ++ [mkResult TxType.sell c.costUsd c.costIdr gainLossUsd gainLossIdr pphTax 0],
      totalSells := s.totalSells + 1,
      totalSellValueIdr := s.totalSellValueIdr + transactionValueIdr,
      totalGainIdr := if gainLossIdr > 0 then s.totalGainIdr + gainLossIdr else s.totalGainIdr,
      totalLossIdr := if gainLossIdr > 0 then s.totalLossIdr else s.totalLossIdr + |gainLossIdr|,
      totalPphTax := s.totalPphTax + pphTax }

/-- Timestamp order used by the sort at lines 110-112. -/
def tsLE (a b : Transaction) : Prop := a.timestamp ≤ b.timestamp

instance : DecidableRel tsLE := fun a b => inferInstanceAs (Decidable (a.timestamp ≤ b.timestamp))

instance : IsTotal Transaction tsLE := ⟨fun a b => le_total a.timestamp b.timestamp⟩

instance : IsTrans Transaction tsLE := ⟨fun _ _ _ h h' => le_trans h h'⟩

/-- The sort `[...transactions].sort((a, b) => ta - tb)`: the stable ascending
sort by timestamp (JavaScript sort is stable; a stable sorted
rearrangement is unique, so insertion sort embeds it exactly). -/
def sortTransactions (txs : List Transaction) : List Transaction :=
  List.insertionSort tsLE txs

/-- The classification/aggregation loop over the sorted records. -/
def runLedger (prices : String → Option ℚ) (usdIdrRate : ℚ) :
    CalcState → List Transaction → CalcState
  | s, [] => s
  | s, tx :: rest => runLedger prices usdIdrRate (processTx prices usdIdrRate s tx) rest

/-- Function `calculateTaxes` (tax-calculator.ts, lines 73-339), with the price
map and the USD→IDR rate as oracle parameters (the source obtains them
once per run before the loop). -/
def calculateTaxes (prices : String → Option ℚ) (usdIdrRate : ℚ)
    (transactions : List Transaction) : TaxSummary :=
  if transactions.isEmpty then
    ⟨0, 0, 0, 0, 0, 0, 0, 0, 0, 0, 0, []⟩
  else
    let s := runLedger prices usdIdrRate initState (sortTransactions transactions)
    ⟨transactions.length, s.totalBuys, s.totalSells,
     s.totalBuyValueIdr, s.totalSellValueIdr,
     s.totalGainIdr, s.totalLossIdr, s.totalGainIdr - s.totalLossIdr,
     s.totalPphTax, s.totalPpnTax, s.totalPphTax + s.totalPpnTax,
     s.results⟩

/-- Sum of the remaining amounts of a lot queue. -/
def sumAmounts (l : List TokenLot) : ℚ := (l.map TokenLot.amount).sum

/-- Sum of the USD cost bases of a lot queue. -/
def sumBasisUsd (l : List TokenLot) : ℚ := (l.map TokenLot.costBasisUsd).sum

/-- Sum of the IDR cost bases of a lot queue. -/
def sumBasisIdr (l : List TokenLot) : ℚ := (l.map TokenLot.costBasisIdr).sum

/-- Ghost observer: the amount acquired for token `tok` by one record,
i.e. the `amount` of the lot the buy or swap branch pushes (`toAmount`),
and `0` for the sell branch, which creates no lot. -/
def acquiredAmt (tx : Transaction) (tok : String) : ℚ :=
  let fromToken := tx.fromToken.getD ""
  let toToken := tx.toToken.getD ""
  let toAmount := tx.toAmount.getD 0
  if isStableOrSol fromToken && !isStableOrSol toToken then
    if toToken = tok then toAmount else 0
  else if !isStableOrSol fromToken && isStableOrSol toToken then 0
  else if toToken = tok then toAmount else 0

/-- Ghost observer: the lots the record creates for token `tok`
(the literal lot pushed by the buy branch or the swap branch). -/
def createdBy (prices : String → Option ℚ) (usdIdrRate : ℚ)
    (tx : Transaction) (tok : String) : List TokenLot :=
  let fromToken := tx.fromToken.getD ""
  let toToken := tx.toToken.getD ""
  let fromAmount := tx.fromAmount.getD 0
  let toAmount := tx.toAmount.getD 0
  let fromPrice := priceOrZero (prices fromToken)
  let toPrice := priceOrZero (prices toToken)
  let transactionValueUsd := toAmount * toPrice
  let transactionValueIdr := transactionValueUsd * usdIdrRate
  if isStableOrSol fromToken && !isStableOrSol toToken then
    if toToken = tok then
      [⟨toToken, toAmount, fromAmount * fromPrice, fromAmount * fromPrice * usdIdrRate, tx.timestamp⟩]
    else []
  else if !isStableOrSol fromToken && isStableOrSol toToken then []
  else if toToken = tok then
    [⟨toToken, toAmount, transactionValueUsd, transactionValueIdr, tx.timestamp⟩]
  else []

/-- Ghost observer: every lot ever created for `tok` over a record
list, in creation order. -/
def createdLots (prices : String → Option ℚ) (usdIdrRate : ℚ) :
    List Transaction → String → List TokenLot
  | [], _ => []
  | tx :: rest, tok => createdBy prices usdIdrRate tx tok ++ createdLots prices usdIdrRate rest tok

/-- Ghost observer: total acquisition amount recorded for `tok`. -/
def acquiredTotal : List Transaction → String → ℚ
  | [], _ => 0
  | tx :: rest, tok => acquiredAmt tx tok + acquiredTotal rest tok

/-- Ghost observer: the matched (actually consumed) amount a record
disposes from token `tok` in state `s`: the requested `fromAmount`
minus the unmatched shortfall; `0` for the buy branch. -/
def matchedAmt (s : CalcState) (tx : Transaction) (tok : String) : ℚ :=
  let fromToken := tx.fromToken.getD ""
  let toToken := tx.toToken.getD ""
  let fromAmount := tx.fromAmount.getD 0
  if isStableOrSol fromToken && !isStableOrSol toToken then 0
  else if fromToken = tok then
    fromAmount - (consume (s.tokenLots fromToken) fromAmount).unmatched
  else 0

/-- Ghost observer: total matched disposal amount for `tok` over a run
starting in state `s`. -/
def matchedTotal (prices : String → Option ℚ) (usdIdrRate : ℚ) :
    CalcState → List Transaction → String → ℚ
  | _, [], _ => 0
  | s, tx :: rest, tok =>
    matchedAmt s tx tok +
      matchedTotal prices usdIdrRate (processTx prices usdIdrRate s tx) rest tok

/-! ### Price service (price.ts) -/

/-- Set `MAJOR_TOKENS`: the statically configured cacheable token set. -/
def MAJOR_TOKENS : List String :=
  ["So11111111111111111111111111111111111111112",
   "EPjFWdd5AufqSSqeM2qN1xzybapC8G4wEGGkZwyTDt1v",
   "Es9vMFrzaCERmJfrF4H2FYD4KCoNkY11McCe8BenwNYB",
   "mSoLzYCxHdYgdzU16g5QSh3i5K3z3KZK7ytfqcJm7So",
   "DezXAZ8z7PnrnRJjz3wXBoRgixCa6xjnB7YaB1pPB263",
   "7vfCXTUXx5WJV5JADk17DUJ4ksgau7utNKj4b963voxs",
   "JUPyiwrYJFskUPiHa7hkeR8VUtAeFoSYbKedZNsDvCN"]

/-- Constant `CACHE_DURATION_MS = 3 * 60 * 60 * 1000`. -/
def CACHE_DURATION_MS : Int := 3 * 60 * 60 * 1000

/-- A `token_prices` row (nullable price and source columns). -/
structure CacheEntry where
  tokenAddress : String
  timestamp : Int
  priceUsd : Option ℚ
  source : Option String
deriving DecidableEq

/-- Structure `PriceResult` from price.ts. -/
structure PriceResult where
  priceUsd : Option ℚ
  source : String
  cached : Bool
deriving DecidableEq

/-- The row filter of `checkCache`'s select: same token, timestamp
within the symmetric ±`CACHE_DURATION_MS` window. -/
def inCacheWindow (tok : String) (ts : Int) (e : CacheEntry) : Bool :=
  e.tokenAddress == tok &&
    (ts - CACHE_DURATION_MS ≤ e.timestamp) &&
    (e.timestamp ≤ ts + CACHE_DURATION_MS)

/-- Function `checkCache` (price.ts, lines 78-107): only major tokens are looked
up; the select takes the first matching row (`limit 1`, `db` listed in
row order); a row with a null price is a miss (`cached[0].priceUsd` is
falsy only when null, a stored decimal string is always truthy); a hit
carries the stored source, defaulting to `'cache'`. -/
def checkCache (db : List CacheEntry) (tokenAddress : String) (timestamp : Int) :
    Option PriceResult :=
  if MAJOR_TOKENS.contains tokenAddress then
    match (db.filter (inCacheWindow tokenAddress timestamp)).head? with
    | some e =>
      match e.priceUsd with
      | some p => some ⟨some p, e.source.getD "cache", true⟩
      | none => none
    | none => none
  else none

/-- Function `getTokenPrice` (price.ts, lines 189-233): cache → Birdeye →
DexScreener → none.  The two providers are oracle parameters of type
`Option ℚ`; a caught fetch error and a null response are both `none`,
exactly as in the source, where every failure path returns null.  The
best-effort cache writes do not affect the returned quote and are not
modelled here. -/
def getTokenPrice (db : List CacheEntry) (birdeyePrice dexScreenerPrice : Option ℚ)
    (tokenAddress : String) (timestamp : Int) : PriceResult :=
  match checkCache db tokenAddress timestamp with
  | some cached => cached
  | none =>
    match birdeyePrice with
    | some p => ⟨some p, "birdeye", false⟩
    | none =>
      match dexScreenerPrice with
      | some p => ⟨some p, "dexscreener", false⟩
      | none => ⟨none, "none", false⟩

/-! ### Concrete instances used by witnesses and counterexamples -/

/-- A token-to-token swap record: 1 AAA → 1 BBB, neither leg a base
token. -/
def swapTx : Transaction :=
  ⟨"t2t", 0, some "AAA", some 1, some "A", some "BBB", some 1, some "B", some "dex"⟩

/-- Prices for `swapTx`: AAA at 10 USD, BBB at 20 USD. -/
def swapPrices : String → Option ℚ :=
  fun t => if t = "AAA" then some 10 else if t = "BBB" then some 20 else none

/-- A buy record (SOL → AAA) with timestamp 100, signature "a". -/
def tieTxA : Transaction :=
  ⟨"a", 100, some solToken, some 1, some "SOL", some "AAA", some 1, some "A", some "dex"⟩

/-- The same buy with the same timestamp 100 but signature "b". -/
def tieTxB : Transaction :=
  ⟨"b", 100, some solToken, some 1, some "SOL", some "AAA", some 1, some "A", some "dex"⟩

/-- A buy record with timestamp 1. -/
def earlyTx : Transaction :=
  ⟨"early", 1, some solToken, some 1, some "SOL", some "AAA", some 1, some "A", some "dex"⟩

/-- A buy record with timestamp 2. -/
def lateTx : Transaction :=
  ⟨"late", 2, some solToken, some 1, some "SOL", some "AAA", some 1, some "A", some "dex"⟩

/-- A base-to-base record: 2 SOL → 3 USDC. -/
def baseToBaseTx : Transaction :=
  ⟨"b2b", 0, some solToken, some 2, some "SOL",
   some "EPjFWdd5AufqSSqeM2qN1xzybapC8G4wEGGkZwyTDt1v", some 3, some "USDC", some "dex"⟩

/-! ### Helper lemmas (shared) -/

/-- Every branch of the classifier appends exactly one result row. -/
theorem processTx_results_len (prices : String → Option ℚ) (rate : ℚ)
    (s : CalcState) (tx : Transaction) :
    (processTx prices rate s tx).results.length = s.results.length + 1 := by
  unfold processTx
  dsimp only
  split_ifs <;> simp

/-- The run loop appends one result per record. -/
theorem runLedger_results_len (prices : String → Option ℚ) (rate : ℚ) :
    ∀ (l : List Transaction) (s : CalcState),
      (runLedger prices rate s l).results.length = s.results.length + l.length
  | [], s => by simp [runLedger]
  | tx :: rest, s => by
    rw [runLedger, runLedger_results_len prices rate rest, processTx_results_len]
    simp
    omega

/-- Consuming from a queue whose total amount is below the request
consumes every lot: the whole accumulated basis is returned, the queue
empties, and the shortfall is the request minus the total held. -/
theorem consume_exhaust :
    ∀ (lots : List TokenLot) (d : ℚ), (∀ l ∈ lots, 0 ≤ l.amount) →
      sumAmounts lots < d →
      consume lots d = ⟨sumBasisUsd lots, sumBasisIdr lots, [], d - sumAmounts lots⟩
  | [], d, _, _ => by
    simp [consume, sumAmounts, sumBasisUsd, sumBasisIdr]
  | lot :: rest, d, hpos, hlt => by
    have hrest : ∀ l ∈ rest, 0 ≤ l.amount := fun l hl => hpos l (List.mem_cons_of_mem _ hl)
    have hsum : sumAmounts (lot :: rest) = lot.amount + sumAmounts rest := by
      simp [sumAmounts]
    have hrestsum : 0 ≤ sumAmounts rest :=
      List.sum_nonneg (by
        intro x hx
        obtain ⟨l, hl, rfl⟩ := List.mem_map.1 hx
        exact hrest l hl)
    have hlot : 0 ≤ lot.amount := hpos lot (List.mem_cons_self _ _)
    have hlt' : sumAmounts rest < d - lot.amount := by rw [hsum] at hlt; linarith
    have hd0 : ¬ d ≤ 0 := by rw [hsum] at hlt; push_neg; linarith
    have hle : lot.amount ≤ d := by rw [hsum] at hlt; linarith
    rw [consume, if_neg hd0, if_pos hle, consume_exhaust rest (d - lot.amount) hrest hlt']
    simp only [sumBasisUsd, sumBasisIdr, sumAmounts, List.map_cons, List.sum_cons,
      ConsumeResult.mk.injEq]
    refine ⟨trivial, trivial, trivial, by ring⟩

/-! ### Claim theorems -/

/-- C1: FIFO consumption draws cost basis from the oldest lot first:
with the queue `[a1, a2]` (acquired at `a1.timestamp < a2.timestamp`),
a disposal of `d ≤ a1.amount` draws its whole basis from `a1`
(`d / a1.amount` of each basis field) and leaves `a2` untouched (the
resulting queue is `[a2]` when `a1` is exactly exhausted, otherwise the
proportionally reduced `a1` followed by the unchanged `a2`); and the
worked example — lots of 10 units / basis 1,000,000 and 5 units /
basis 600,000, disposing 8 with proceeds 1,200,000 — consumes basis
800,000, leaves the first lot at 2 units / 200,000 with the second lot
unchanged, for a realized gain of 400,000. -/
theorem fifo_oldest_first (a1 a2 : TokenLot) (d : ℚ)
    (ht : a1.timestamp < a2.timestamp) (hd0 : 0 ≤ d) (hdq : d ≤ a1.amount)
    (hq : 0 < a1.amount) :
    (consume [a1, a2] d).costUsd = d / a1.amount * a1.costBasisUsd ∧
    (consume [a1, a2] d).costIdr = d / a1.amount * a1.costBasisIdr ∧
    ((consume [a1, a2] d).lots = [a2] ∨
      (consume [a1, a2] d).lots =
        [{ a1 with amount := a1.amount - d,
                   costBasisUsd := a1.costBasisUsd * (1 - d / a1.amount),
                   costBasisIdr := a1.costBasisIdr * (1 - d / a1.amount) }, a2]) ∧
    consume [⟨"T", 10, 1000000, 1000000, 0⟩, ⟨"T", 5, 600000, 600000, 1⟩] 8 =
      ⟨800000, 800000, [⟨"T", 2, 200000, 200000, 0⟩, ⟨"T", 5, 600000, 600000, 1⟩], 0⟩ ∧
    (1200000 : ℚ) -
      (consume [⟨"T", 10, 1000000, 1000000, 0⟩, ⟨"T", 5, 600000, 600000, 1⟩] 8).costUsd
      = 400000 := by
  have hexample :
      consume [(⟨"T", 10, 1000000, 1000000, 0⟩ : TokenLot), ⟨"T", 5, 600000, 600000, 1⟩] 8 =
        ⟨800000, 800000, [⟨"T", 2, 200000, 200000, 0⟩, ⟨"T", 5, 600000, 600000, 1⟩], 0⟩ := by
    simp only [consume]
    norm_num
  have hgeneral :
      (consume [a1, a2] d).costUsd = d / a1.amount * a1.costBasisUsd ∧
      (consume [a1, a2] d).costIdr = d / a1.amount * a1.costBasisIdr ∧
      ((consume [a1, a2] d).lots = [a2] ∨
        (consume [a1, a2] d).lots =
          [{ a1 with amount := a1.amount - d,
                     costBasisUsd := a1.costBasisUsd * (1 - d / a1.amount),
                     costBasisIdr := a1.costBasisIdr * (1 - d / a1.amount) }, a2]) := by
    rcases eq_or_lt_of_le hd0 with h0 | h0
    · -- d = 0: the loop does not run at all
      obtain rfl : d = 0 := h0.symm
      rw [consume, if_pos le_rfl]
      refine ⟨by simp, by simp, Or.inr ?_⟩
      simp
    · rcases eq_or_lt_of_le hdq with h1 | h1
      · -- d = a1.amount: the first lot is consumed exactly
        obtain rfl : d = a1.amount := h1
        rw [consume, if_neg (by linarith), if_pos le_rfl]
        rw [show a1.amount - a1.amount = 0 by ring, consume, if_pos le_rfl]
        refine ⟨?_, ?_, Or.inl rfl⟩ <;>
          field_simp
      · -- 0 < d < a1.amount: a fraction of the first lot is consumed
        rw [consume, if_neg (by linarith), if_neg (by linarith)]
        exact ⟨by ring, by ring, Or.inr rfl⟩
  exact ⟨hgeneral.1, hgeneral.2.1, hgeneral.2.2, hexample, by rw [hexample]; norm_num⟩

/-- Witness for C1: the worked example, through `fifo_oldest_first`. -/
theorem fifo_oldest_first_witness :
    ((0 : Int) < 1 ∧ (0 : ℚ) ≤ 8 ∧ (8 : ℚ) ≤ 10 ∧ (0 : ℚ) < 10) ∧
    consume [⟨"T", 10, 1000000, 1000000, 0⟩, ⟨"T", 5, 600000, 600000, 1⟩] 8 =
      ⟨800000, 800000, [⟨"T", 2, 200000, 200000, 0⟩, ⟨"T", 5, 600000, 600000, 1⟩], 0⟩ :=
  ⟨⟨by norm_num, by norm_num, by norm_num, by norm_num⟩,
   (fifo_oldest_first ⟨"T", 10, 1000000, 1000000, 0⟩ ⟨"T", 5, 600000, 600000, 1⟩ 8
      (by norm_num) (by norm_num) (by norm_num) (by norm_num)).2.2.2.1⟩

/-- C2: consuming `0 < r < amount` of the head lot is a proportional
split with fraction `f = r / amount ∈ (0, 1)`: the remaining amount and
both cost-basis fields are all multiplied by `1 - f`, and the average
unit cost `costBasis / amount` is exactly unchanged. -/
theorem proportional_split (lot : TokenLot) (rest : List TokenLot) (r : ℚ)
    (h0 : 0 < r) (h1 : r < lot.amount) :
    0 < r / lot.amount ∧ r / lot.amount < 1 ∧
    (consume (lot :: rest) r).lots =
      { lot with amount := lot.amount - r,
                 costBasisUsd := lot.costBasisUsd * (1 - r / lot.amount),
                 costBasisIdr := lot.costBasisIdr * (1 - r / lot.amount) } :: rest ∧
    lot.amount - r = lot.amount * (1 - r / lot.amount) ∧
    lot.costBasisUsd * (1 - r / lot.amount) / (lot.amount - r) =
      lot.costBasisUsd / lot.amount ∧
    lot.costBasisIdr * (1 - r / lot.amount) / (lot.amount - r) =
      lot.costBasisIdr / lot.amount := by
  have hq : 0 < lot.amount := h0.trans h1
  have hqne : lot.amount ≠ 0 := hq.ne'
  have hsub : lot.amount - r ≠ 0 := by
    intro h
    exact absurd (by linarith : lot.amount = r) (by exact fun h' => absurd h' (by linarith))
  have hfactor : lot.amount - r = lot.amount * (1 - r / lot.amount) := by
    field_simp
  refine ⟨div_pos h0 hq, (div_lt_one hq).2 h1, ?_, hfactor, ?_, ?_⟩
  · rw [consume, if_neg (by linarith), if_neg (by linarith)]
  · field_simp
    ring
  · field_simp
    ring

/-- Witness for C2: the proportional split at a concrete lot. -/
theorem proportional_split_witness :
    ((0 : ℚ) < 4 ∧ (4 : ℚ) < 10) ∧
    (consume [(⟨"T", 10, 1000000, 2000000, 0⟩ : TokenLot)] 4).lots =
      [{ (⟨"T", 10, 1000000, 2000000, 0⟩ : TokenLot) with
          amount := (10 : ℚ) - 4,
          costBasisUsd := (1000000 : ℚ) * (1 - 4 / 10),
          costBasisIdr := (2000000 : ℚ) * (1 - 4 / 10) }] :=
  ⟨⟨by norm_num, by norm_num⟩,
   (proportional_split ⟨"T", 10, 1000000, 2000000, 0⟩ [] 4 (by norm_num) (by norm_num)).2.2.1⟩

/-- C3: a disposal whose request exceeds the total held amount
terminates, returns exactly the basis accumulated from the available
lots (the unmatched remainder contributes zero basis), and empties the
queue; and every record — including such a disposal — still appends
exactly one tax result row. -/
theorem overdisposal_is_not_an_error (lots : List TokenLot) (d : ℚ)
    (hpos : ∀ l ∈ lots, 0 ≤ l.amount) (hlt : sumAmounts lots < d) :
    consume lots d = ⟨sumBasisUsd lots, sumBasisIdr lots, [], d - sumAmounts lots⟩ ∧
    ∀ (prices : String → Option ℚ) (rate : ℚ) (s : CalcState) (tx : Transaction),
      (processTx prices rate s tx).results.length = s.results.length + 1 :=
  ⟨consume_exhaust lots d hpos hlt, fun prices rate s tx => processTx_results_len prices rate s tx⟩

/-- Witness for C3: disposing 5 from a queue holding only 3. -/
theorem overdisposal_is_not_an_error_witness :
    ((∀ l ∈ [(⟨"T", 3, 30, 30, 0⟩ : TokenLot)], 0 ≤ l.amount) ∧
      sumAmounts [(⟨"T", 3, 30, 30, 0⟩ : TokenLot)] < 5) ∧
    consume [(⟨"T", 3, 30, 30, 0⟩ : TokenLot)] 5 =
      ⟨sumBasisUsd [(⟨"T", 3, 30, 30, 0⟩ : TokenLot)],
       sumBasisIdr [(⟨"T", 3, 30, 30, 0⟩ : TokenLot)], [],
       5 - sumAmounts [(⟨"T", 3, 30, 30, 0⟩ : TokenLot)]⟩ :=
  ⟨⟨by norm_num, by norm_num [sumAmounts]⟩,
   (overdisposal_is_not_an_error [⟨"T", 3, 30, 30, 0⟩] 5
      (by norm_num) (by norm_num [sumAmounts])).1⟩

/-- C7: a null price never aborts the run — the embedded price lookup
values a missing price at zero, `calculateTaxes` is total and returns
exactly one `TransactionTaxResult` per input record, and
`totalTransactions` is the input length. -/
theorem null_price_never_aborts (prices : String → Option ℚ) (rate : ℚ)
    (txs : List Transaction) :
    (calculateTaxes prices rate txs).transactions.length = txs.length ∧
    (calculateTaxes prices rate txs).totalTransactions = txs.length ∧
    priceOrZero none = 0 := by
  have hlen : (calculateTaxes prices rate txs).transactions.length = txs.length := by
    unfold calculateTaxes
    rcases h : txs.isEmpty with _ | _
    · simp only [h, Bool.false_eq_true, if_false]
      show (runLedger prices rate initState (sortTransactions txs)).results.length = txs.length
      rw [runLedger_results_len]
      simp [initState, sortTransactions, (List.perm_insertionSort tsLE txs).length_eq]
    · rw [List.isEmpty_iff] at h
      subst h
      simp
  have htot : (calculateTaxes prices rate txs).totalTransactions = txs.length := by
    unfold calculateTaxes
    rcases h : txs.isEmpty with _ | _
    · simp [h]
    · rw [List.isEmpty_iff] at h
      subst h
      simp
  exact ⟨hlen, htot, rfl⟩

/-- Consumption preserves strict positivity of lot amounts: the loop
removes every lot it consumes fully and the split lot keeps
`amount - remaining > 0`, so no zero-amount lot is ever created. -/
theorem consume_pos :
    ∀ (lots : List TokenLot) (r : ℚ), (∀ l ∈ lots, 0 < l.amount) →
      ∀ l ∈ (consume lots r).lots, 0 < l.amount
  | [], r, h => by
    intro l hl
    simp [consume] at hl
  | lot :: rest, r, h => by
    intro l hl
    rw [consume] at hl
    by_cases h1 : r ≤ 0
    · rw [if_pos h1] at hl
      exact h l hl
    · rw [if_neg h1] at hl
      by_cases h2 : lot.amount ≤ r
      · rw [if_pos h2] at hl
        dsimp at hl
        exact consume_pos rest (r - lot.amount)
          (fun x hx => h x (List.mem_cons_of_mem _ hx)) l hl
      · rw [if_neg h2] at hl
        dsimp at hl
        rcases List.mem_cons.1 hl with rfl | hl'
        · dsimp
          push_neg at h2
          linarith
        · exact h l (List.mem_cons_of_mem _ hl')

/-- C9 counterexample: `recordAcquisition` with amount 0 (which the
source permits) appends a lot whose amount is 0 and leaves it in the
queue, so "no queue contains a lot whose amount equals 0" fails right
after this operation. -/
theorem zero_lot_counterexample :
    (recordAcquisition (fun _ => []) "T" 0 5 5 0) "T" = [⟨"T", 0, 5, 5, 0⟩] ∧
    (⟨"T", 0, 5, 5, 0⟩ : TokenLot).amount = 0 := by
  refine ⟨?_, rfl⟩
  simp [recordAcquisition]

/-- C9 amended: amounts stay strictly positive under `consume` (a
fully consumed lot is removed and a split never leaves amount 0), but
`recordAcquisition` appends its lot unconditionally, so a zero-amount
acquisition leaves a zero-amount lot in the queue. -/
theorem lot_queue_invariant_amended (lots : List TokenLot) (r : ℚ)
    (hpos : ∀ l ∈ lots, 0 < l.amount) :
    (∀ l ∈ (consume lots r).lots, 0 < l.amount) ∧
    (∀ (m : String → List TokenLot) (tok : String) (a cu ci : ℚ) (ts : Int),
      recordAcquisition m tok a cu ci ts tok = m tok ++ [⟨tok, a, cu, ci, ts⟩]) :=
  ⟨consume_pos lots r hpos,
   fun m tok a cu ci ts => by simp [recordAcquisition]⟩

/-- Witness for C9 (amended): a concrete positive queue stays positive
after consuming 1 of 2 units. -/
theorem lot_queue_invariant_amended_witness :
    (∀ l ∈ [(⟨"T", 2, 5, 5, 0⟩ : TokenLot)], 0 < l.amount) ∧
    ∀ l ∈ (consume [(⟨"T", 2, 5, 5, 0⟩ : TokenLot)] 1).lots, 0 < l.amount :=
  ⟨by
    intro l hl
    rw [List.mem_singleton] at hl
    subst hl
    norm_num,
   (lot_queue_invariant_amended [⟨"T", 2, 5, 5, 0⟩] 1 (by
      intro l hl
      rw [List.mem_singleton] at hl
      subst hl
      norm_num)).1⟩

/-- C10: a record whose two legs are both base tokens falls into the
token-to-token branch: it is classified as a sell, the from token's
FIFO lots are consumed for cost basis, the sell-side PPH rate applies
with no PPN, and a new lot with basis equal to the transaction USD/IDR
value is appended to the to (base) token's queue. -/
theorem base_to_base_swap_branch (prices : String → Option ℚ) (rate : ℚ)
    (s : CalcState) (tx : Transaction)
    (hf : isStableOrSol (tx.fromToken.getD "") = true)
    (ht : isStableOrSol (tx.toToken.getD "") = true) :
    ∃ res, (processTx prices rate s tx).results = s.results ++ [res] ∧
      res.type = TxType.sell ∧
      res.costBasisUsd =
        (consume (s.tokenLots (tx.fromToken.getD "")) (tx.fromAmount.getD 0)).costUsd ∧
      res.ppnTax = 0 ∧
      res.pphTax =
        tx.toAmount.getD 0 * priceOrZero (prices (tx.toToken.getD "")) * rate * PPH_SELL ∧
      (processTx prices rate s tx).totalSells = s.totalSells + 1 ∧
      (processTx prices rate s tx).tokenLots (tx.toToken.getD "") =
        (Function.update s.tokenLots (tx.fromToken.getD "")
            (consume (s.tokenLots (tx.fromToken.getD "")) (tx.fromAmount.getD 0)).lots)
          (tx.toToken.getD "") ++
        [⟨tx.toToken.getD "", tx.toAmount.getD 0,
          tx.toAmount.getD 0 * priceOrZero (prices (tx.toToken.getD "")),
          tx.toAmount.getD 0 * priceOrZero (prices (tx.toToken.getD "")) * rate,
          tx.timestamp⟩] := by
  unfold processTx
  simp only [hf, ht, Bool.not_true, Bool.and_false, Bool.false_and, Bool.false_eq_true,
    if_false]
  exact ⟨_, rfl, rfl, rfl, rfl, rfl, trivial, by rw [Function.update_same]⟩

/-- Witness for C10: 2 SOL → 3 USDC from the fresh state. -/
theorem base_to_base_swap_branch_witness :
    (isStableOrSol (baseToBaseTx.fromToken.getD "") = true ∧
      isStableOrSol (baseToBaseTx.toToken.getD "") = true) ∧
    ∃ res, (processTx (fun _ => some 1) 1 initState baseToBaseTx).results =
        initState.results ++ [res] ∧
      res.type = TxType.sell ∧
      (processTx (fun _ => some 1) 1 initState baseToBaseTx).totalSells =
        initState.totalSells + 1 :=
  ⟨⟨by decide, by decide⟩, by
    obtain ⟨res, h1, h2, _, _, _, h6, _⟩ :=
      base_to_base_swap_branch (fun _ => some 1) 1 initState baseToBaseTx
        (by decide) (by decide)
    exact ⟨res, h1, h2, h6⟩⟩

/-- C6 counterexample: a cache hit returns the *stored* source
('birdeye' here), not `source = cache`. -/
theorem cache_hit_source_counterexample :
    getTokenPrice [⟨solToken, 0, some 1, some "birdeye"⟩] none none solToken 0 =
      ⟨some 1, "birdeye", true⟩ ∧
    ("birdeye" : String) ≠ "cache" := by
  exact ⟨by decide, by decide⟩

/-- C6 amended: `getTokenPrice` follows the waterfall cache → Birdeye →
DexScreener → none.  A cache hit is possible only for major tokens,
comes from a stored row inside the symmetric tolerance window, returns
immediately with `cached = true` and the *stored* row's source
(defaulting to 'cache' when the row has none); if both providers fail
or return null the quote is `priceUsd = null, source = none`, returned
normally rather than raised. -/
theorem price_waterfall_amended (db : List CacheEntry) (be dx : Option ℚ)
    (tok : String) (ts : Int) :
    (MAJOR_TOKENS.contains tok = false → checkCache db tok ts = none) ∧
    (∀ res, checkCache db tok ts = some res →
      getTokenPrice db be dx tok ts = res ∧ res.cached = true ∧
      MAJOR_TOKENS.contains tok = true ∧
      ∃ e ∈ db, inCacheWindow tok ts e = true ∧ res.priceUsd = e.priceUsd ∧
        res.source = e.source.getD "cache") ∧
    (checkCache db tok ts = none → be = none → dx = none →
      getTokenPrice db be dx tok ts = ⟨none, "none", false⟩) ∧
    (∀ p, checkCache db tok ts = none → be = some p →
      getTokenPrice db be dx tok ts = ⟨some p, "birdeye", false⟩) ∧
    (∀ p, checkCache db tok ts = none → be = none → dx = some p →
      getTokenPrice db be dx tok ts = ⟨some p, "dexscreener", false⟩) := by
  refine ⟨?_, ?_, ?_, ?_, ?_⟩
  · intro h
    unfold checkCache
    rw [h]
    rfl
  · intro res h
    have hmaj : MAJOR_TOKENS.contains tok = true := by
      by_contra hc
      rw [Bool.not_eq_true] at hc
      unfold checkCache at h
      rw [hc] at h
      simp at h
    have hget : getTokenPrice db be dx tok ts = res := by
      unfold getTokenPrice
      rw [h]
    unfold checkCache at h
    rw [hmaj, if_pos rfl] at h
    rcases hh : (db.filter (inCacheWindow tok ts)).head? with _ | e
    · rw [hh] at h
      simp at h
    · have hemem : e ∈ db.filter (inCacheWindow tok ts) :=
        List.mem_of_mem_head? (by rw [hh]; rfl)
      have hedb : e ∈ db := (List.mem_filter.1 hemem).1
      have hwin : inCacheWindow tok ts e = true := (List.mem_filter.1 hemem).2
      rw [hh] at h
      simp only at h
      rcases hp : e.priceUsd with _ | p
      · rw [hp] at h
        simp at h
      · rw [hp] at h
        simp only at h
        have hres : (⟨some p, e.source.getD "cache", true⟩ : PriceResult) = res :=
          Option.some.inj h
        refine ⟨hget, ?_, hmaj, e, hedb, hwin, ?_, ?_⟩
        · rw [← hres]
        · rw [← hres, hp]
        · rw [← hres]
  · intro h hbe hdx
    unfold getTokenPrice
    rw [h, hbe, hdx]
  · intro p h hbe
    unfold getTokenPrice
    rw [h, hbe]
  · intro p h hbe hdx
    unfold getTokenPrice
    rw [h, hbe, hdx]

/-- Witness for C6 (amended): the empty cache and failing providers
yield the `none` quote; the concrete cache hit returns the stored row
with `cached = true`. -/
theorem price_waterfall_amended_witness :
    getTokenPrice [] none none "X" 0 = ⟨none, "none", false⟩ ∧
    getTokenPrice [⟨solToken, 0, some 1, some "birdeye"⟩] none none solToken 0 =
      (⟨some 1, "birdeye", true⟩ : PriceResult) ∧
    (⟨some 1, "birdeye", true⟩ : PriceResult).cached = true := by
  have h := (price_waterfall_amended [⟨solToken, 0, some 1, some "birdeye"⟩]
      none none solToken 0).2.1 ⟨some 1, "birdeye", true⟩ (by decide)
  exact ⟨(price_waterfall_amended [] none none "X" 0).2.2.1 (by decide) rfl rfl,
    h.1, h.2.1⟩

/-- C4 counterexample: for the token-to-token swap `swapTx` (1 AAA at
10 USD → 1 BBB at 20 USD, empty ledger) the code records
`gainLossUsd = transactionValueUsd - costBasis = 20`, while
`proceeds (fromAmount × fromPrice) - costBasis = 10`, so "realized
gain/loss equals proceeds (fromAmount × fromPrice) minus the consumed
cost basis" fails for this record, which is classified as a sell. -/
theorem swap_gain_counterexample :
    (calculateTaxes swapPrices 1 [swapTx]).transactions.map
        (fun r => (r.gainLossUsd, r.fromAmount * r.fromPriceUsd - r.costBasisUsd)) =
      [((20 : ℚ), (10 : ℚ))] ∧
    ¬ ∀ r ∈ (calculateTaxes swapPrices 1 [swapTx]).transactions,
        r.gainLossUsd = r.fromAmount * r.fromPriceUsd - r.costBasisUsd := by
  have hmap :
      (calculateTaxes swapPrices 1 [swapTx]).transactions.map
          (fun r => (r.gainLossUsd, r.fromAmount * r.fromPriceUsd - r.costBasisUsd)) =
        [((20 : ℚ), (10 : ℚ))] := by
    simp [calculateTaxes, sortTransactions, List.insertionSort, runLedger, processTx,
      initState, swapTx, swapPrices, consume, isStableOrSol, stableTokens, solToken,
      priceOrZero, PPH_SELL, PPN_BUY]
  refine ⟨hmap, ?_⟩
  intro hall
  rcases htx : (calculateTaxes swapPrices 1 [swapTx]).transactions with _ | ⟨r, rest⟩
  · rw [htx] at hmap
    simp at hmap
  · rw [htx] at hmap
    rw [htx] at hall
    simp only [List.map_cons, List.cons.injEq, Prod.mk.injEq] at hmap
    obtain ⟨⟨hg, hv⟩, -⟩ := hmap
    have hr := hall r (List.mem_cons_self r rest)
    rw [hr, hv] at hg
    norm_num at hg

/-- C4 amended: every record not classified as a buy (its from leg is
not a base token) yields one sell-typed result whose consumed cost
basis comes from the from token's FIFO queue and whose tax is the
sell-side PPH rate only (PPN = 0); the realized gain/loss is proceeds
minus consumed basis where the proceeds are `fromAmount × fromPrice`
in the pure-disposal branch (to leg a base token) but the transaction
USD value `toAmount × toPrice` in the token-to-token branch, which
additionally appends one new lot for the to token whose basis is the
full transaction USD/IDR value. -/
theorem disposal_gain_amended (prices : String → Option ℚ) (rate : ℚ)
    (s : CalcState) (tx : Transaction)
    (h1 : isStableOrSol (tx.fromToken.getD "") = false) :
    ∃ res, (processTx prices rate s tx).results = s.results ++ [res] ∧
      res.type = TxType.sell ∧
      res.costBasisUsd =
        (consume (s.tokenLots (tx.fromToken.getD "")) (tx.fromAmount.getD 0)).costUsd ∧
      res.gainLossUsd =
        (if isStableOrSol (tx.toToken.getD "") then
            tx.fromAmount.getD 0 * priceOrZero (prices (tx.fromToken.getD ""))
          else tx.toAmount.getD 0 * priceOrZero (prices (tx.toToken.getD ""))) -
          (consume (s.tokenLots (tx.fromToken.getD "")) (tx.fromAmount.getD 0)).costUsd ∧
      res.pphTax =
        tx.toAmount.getD 0 * priceOrZero (prices (tx.toToken.getD "")) * rate * PPH_SELL ∧
      res.ppnTax = 0 ∧
      (processTx prices rate s tx).tokenLots (tx.toToken.getD "") =
        (if isStableOrSol (tx.toToken.getD "") then
          (Function.update s.tokenLots (tx.fromToken.getD "")
              (consume (s.tokenLots (tx.fromToken.getD "")) (tx.fromAmount.getD 0)).lots)
            (tx.toToken.getD "")
        else
          (Function.update s.tokenLots (tx.fromToken.getD "")
              (consume (s.tokenLots (tx.fromToken.getD "")) (tx.fromAmount.getD 0)).lots)
            (tx.toToken.getD "") ++
          [⟨tx.toToken.getD "", tx.toAmount.getD 0,
            tx.toAmount.getD 0 * priceOrZero (prices (tx.toToken.getD "")),
            tx.toAmount.getD 0 * priceOrZero (prices (tx.toToken.getD "")) * rate,
            tx.timestamp⟩]) := by
  rcases hTo : isStableOrSol (tx.toToken.getD "") with _ | _
  · -- token-to-token branch
    unfold processTx
    simp only [h1, hTo, Bool.false_and, Bool.and_false, Bool.not_false, Bool.and_self,
      Bool.false_eq_true, if_false]
    refine ⟨_, rfl, ?_, ?_, ?_, ?_, ?_, ?_⟩ <;>
      first
        | rfl
        | trivial
        | rw [Function.update_same]
  · -- pure disposal branch
    unfold processTx
    simp only [h1, hTo, Bool.false_and, Bool.not_false, Bool.true_and, Bool.false_eq_true,
      if_false, if_true]
    refine ⟨_, rfl, ?_, ?_, ?_, ?_, ?_, ?_⟩ <;>
      first
        | rfl
        | trivial
        | rw [Function.update_same]

/-- Witness for C4 (amended): the swap record `swapTx` from the fresh
state, discharging the not-a-base-token hypothesis. -/
theorem disposal_gain_amended_witness :
    isStableOrSol (swapTx.fromToken.getD "") = false ∧
    ∃ res, (processTx swapPrices 1 initState swapTx).results =
        initState.results ++ [res] ∧
      res.type = TxType.sell ∧ res.ppnTax = 0 :=
  ⟨by decide, by
    obtain ⟨res, ha, hb, _, _, _, hf, _⟩ :=
      disposal_gain_amended swapPrices 1 initState swapTx (by decide)
    exact ⟨res, ha, hb, hf⟩⟩

/-- C5 counterexample: two records with the same timestamp (the sort
is stable, so their relative input order survives): swapping them in
the input permutes the per-record result list, so the summaries of the
two permuted inputs differ. -/
theorem tie_permutation_counterexample :
    [tieTxB, tieTxA].Perm [tieTxA, tieTxB] ∧
    calculateTaxes (fun _ => some 1) 1 [tieTxA, tieTxB] ≠
      calculateTaxes (fun _ => some 1) 1 [tieTxB, tieTxA] := by
  refine ⟨List.Perm.swap tieTxA tieTxB [], ?_⟩
  intro h
  have hsig := congrArg (fun S => S.transactions.map TransactionTaxResult.signature) h
  simp [calculateTaxes, sortTransactions, List.insertionSort, List.orderedInsert,
    runLedger, processTx, initState, tieTxA, tieTxB, consume, isStableOrSol, stableTokens,
    solToken, priceOrZero, PPH_SELL, PPN_BUY, tsLE, recordAcquisition] at hsig

/-- C5 amended: `calculateTaxes` processes the records in
non-decreasing timestamp order (the stable sort); when the timestamps
are pairwise distinct the result is invariant under any permutation of
the input list; and two calls on the same input always agree. -/
theorem order_invariance_amended (prices : String → Option ℚ) (rate : ℚ)
    (l l' : List Transaction) (hp : l.Perm l')
    (hd : l.Pairwise fun a b => a.timestamp ≠ b.timestamp) :
    calculateTaxes prices rate l = calculateTaxes prices rate l' ∧
    List.Sorted tsLE (sortTransactions l) ∧
    calculateTaxes prices rate l = calculateTaxes prices rate l := by
  have hsorted : ∀ m : List Transaction, List.Sorted tsLE (sortTransactions m) := fun m =>
    List.sorted_insertionSort tsLE m
  have hperm : List.Perm (sortTransactions l) (sortTransactions l') :=
    (List.perm_insertionSort tsLE l).trans (hp.trans (List.perm_insertionSort tsLE l').symm)
  have hd1 : (sortTransactions l).Pairwise (fun a b => a.timestamp ≠ b.timestamp) :=
    ((List.perm_insertionSort tsLE l).pairwise_iff (fun h => h.symm)).2 hd
  have hd2 : (sortTransactions l').Pairwise (fun a b => a.timestamp ≠ b.timestamp) := by
    have hdl : l'.Pairwise (fun a b => a.timestamp ≠ b.timestamp) :=
      (hp.pairwise_iff (fun h => h.symm)).1 hd
    exact ((List.perm_insertionSort tsLE l').pairwise_iff (fun h => h.symm)).2 hdl
  have hs1 : (sortTransactions l).Pairwise
      (fun a b : Transaction => a.timestamp < b.timestamp) :=
    ((hsorted l).and hd1).imp (fun h => lt_of_le_of_ne h.1 h.2)
  have hs2 : (sortTransactions l').Pairwise
      (fun a b : Transaction => a.timestamp < b.timestamp) :=
    ((hsorted l').and hd2).imp (fun h => lt_of_le_of_ne h.1 h.2)
  haveI : IsAntisymm Transaction (fun a b : Transaction => a.timestamp < b.timestamp) :=
    ⟨fun _ _ h h' => absurd (h.trans h') (lt_irrefl _)⟩
  have heq : sortTransactions l = sortTransactions l' :=
    List.eq_of_perm_of_sorted hperm hs1 hs2
  refine ⟨?_, hsorted l, rfl⟩
  by_cases hnil : l = []
  · subst hnil
    have h' : l' = [] := hp.symm.eq_nil
    subst h'
    rfl
  · have hnil' : l' ≠ [] := fun h => hnil (by subst h; exact hp.eq_nil)
    have h1 : ¬ (l.isEmpty = true) := by simp [List.isEmpty_iff, hnil]
    have h2 : ¬ (l'.isEmpty = true) := by simp [List.isEmpty_iff, hnil']
    unfold calculateTaxes
    rw [if_neg h1, if_neg h2, heq, hp.length_eq]

/-- Witness for C5 (amended): two buys with distinct timestamps 1 and
2 give the same summary in either input order. -/
theorem order_invariance_amended_witness :
    ([earlyTx, lateTx].Perm [lateTx, earlyTx] ∧
      List.Pairwise (fun a b : Transaction => a.timestamp ≠ b.timestamp)
        [earlyTx, lateTx]) ∧
    calculateTaxes (fun _ => some 1) 1 [earlyTx, lateTx] =
      calculateTaxes (fun _ => some 1) 1 [lateTx, earlyTx] :=
  ⟨⟨List.Perm.swap lateTx earlyTx [],
    by norm_num [List.pairwise_cons, earlyTx, lateTx]⟩,
   (order_invariance_amended (fun _ => some 1) 1 [earlyTx, lateTx] [lateTx, earlyTx]
      (List.Perm.swap lateTx earlyTx [])
      (by norm_num [List.pairwise_cons, earlyTx, lateTx])).1⟩

/-- Queue amounts are additive over append. -/
theorem sumAmounts_append (a b : List TokenLot) :
    sumAmounts (a ++ b) = sumAmounts a + sumAmounts b := by
  simp [sumAmounts]

/-- One consumption step balances amounts: what is left plus what was
matched (`requested - unmatched`) is what was there. -/
theorem consume_sumAmounts :
    ∀ (lots : List TokenLot) (d : ℚ),
      sumAmounts (consume lots d).lots =
        sumAmounts lots - (d - (consume lots d).unmatched)
  | [], d => by
    simp [consume, sumAmounts]
  | lot :: rest, d => by
    rw [consume]
    by_cases h1 : d ≤ 0
    · rw [if_pos h1]
      ring
    · rw [if_neg h1]
      by_cases h2 : lot.amount ≤ d
      · rw [if_pos h2]
        dsimp only
        rw [consume_sumAmounts rest (d - lot.amount)]
        have hc : sumAmounts (lot :: rest) = lot.amount + sumAmounts rest := by
          simp [sumAmounts]
        rw [hc]
        ring
      · rw [if_neg h2]
        dsimp only
        have hc : sumAmounts (lot :: rest) = lot.amount + sumAmounts rest := by
          simp [sumAmounts]
        have hc2 :
            sumAmounts
              ({ lot with
                  amount := lot.amount - d,
                  costBasisUsd := lot.costBasisUsd * (1 - d / lot.amount),
                  costBasisIdr := lot.costBasisIdr * (1 - d / lot.amount) } :: rest) =
              (lot.amount - d) + sumAmounts rest := by
          simp [sumAmounts]
        rw [hc2, hc]
        ring

/-- One classification step balances amounts per token: afterwards the
queue holds what it held, plus what the record acquired for that
token, minus what the record's disposal actually matched. -/
theorem processTx_sumAmounts (prices : String → Option ℚ) (rate : ℚ)
    (s : CalcState) (tx : Transaction) (tok : String) :
    sumAmounts ((processTx prices rate s tx).tokenLots tok) =
      sumAmounts (s.tokenLots tok) + acquiredAmt tx tok - matchedAmt s tx tok := by
  unfold processTx acquiredAmt matchedAmt
  dsimp only
  by_cases hb1 : (isStableOrSol (tx.fromToken.getD "") &&
      !isStableOrSol (tx.toToken.getD "")) = true
  · -- buy branch
    rw [if_pos hb1, if_pos hb1, if_pos hb1]
    dsimp only
    unfold recordAcquisition
    by_cases htt : tx.toToken.getD "" = tok
    · rw [if_pos htt, ← htt, Function.update_same, sumAmounts_append]
      simp [sumAmounts]
    · rw [if_neg htt, Function.update_noteq (fun h => htt h.symm)]
      ring
  · rw [if_neg hb1, if_neg hb1, if_neg hb1]
    by_cases hb2 : (!isStableOrSol (tx.fromToken.getD "") &&
        isStableOrSol (tx.toToken.getD "")) = true
    · -- sell branch
      rw [if_pos hb2, if_pos hb2]
      dsimp only
      by_cases hft : tx.fromToken.getD "" = tok
      · rw [if_pos hft, ← hft, Function.update_same, consume_sumAmounts]
        ring
      · rw [if_neg hft, Function.update_noteq (fun h => hft h.symm)]
        ring
    · -- token-to-token branch
      rw [if_neg hb2, if_neg hb2]
      dsimp only
      by_cases htt : tx.toToken.getD "" = tok
      · rw [if_pos htt]
        by_cases hft : tx.fromToken.getD "" = tok
        · rw [if_pos hft]
          have hfe : tx.fromToken.getD "" = tx.toToken.getD "" := hft.trans htt.symm
          rw [← htt, Function.update_same, sumAmounts_append, ← hfe,
            Function.update_same, consume_sumAmounts]
          simp only [sumAmounts, List.map_cons, List.map_nil, List.sum_cons, List.sum_nil]
          ring
        · rw [if_neg hft]
          have hne : tx.toToken.getD "" ≠ tx.fromToken.getD "" := fun h => hft (h ▸ htt)
          rw [← htt, Function.update_same, sumAmounts_append,
            Function.update_noteq hne]
          simp only [sumAmounts, List.map_cons, List.map_nil, List.sum_cons, List.sum_nil]
          ring
      · rw [if_neg htt]
        by_cases hft : tx.fromToken.getD "" = tok
        · rw [if_pos hft, Function.update_noteq (fun h => htt h.symm), ← hft,
            Function.update_same, consume_sumAmounts]
          ring
        · rw [if_neg hft, Function.update_noteq (fun h => htt h.symm),
            Function.update_noteq (fun h => hft h.symm)]
          ring

/-- The run-level balance: after any record list, a token's queue
holds the initial amount plus everything acquired minus everything
matched. -/
theorem runLedger_sumAmounts (prices : String → Option ℚ) (rate : ℚ) :
    ∀ (l : List Transaction) (s : CalcState) (tok : String),
      sumAmounts ((runLedger prices rate s l).tokenLots tok) =
        sumAmounts (s.tokenLots tok) + acquiredTotal l tok -
          matchedTotal prices rate s l tok
  | [], s, tok => by
    rw [runLedger, acquiredTotal, matchedTotal]
    ring
  | tx :: rest, s, tok => by
    rw [runLedger, acquiredTotal, matchedTotal,
      runLedger_sumAmounts prices rate rest (processTx prices rate s tx) tok,
      processTx_sumAmounts]
    ring

/-- Each record's created lots carry exactly its acquisition amount. -/
theorem createdBy_amounts (prices : String → Option ℚ) (rate : ℚ)
    (tx : Transaction) (tok : String) :
    sumAmounts (createdBy prices rate tx tok) = acquiredAmt tx tok := by
  unfold createdBy acquiredAmt
  dsimp only
  split_ifs <;> simp [sumAmounts]

/-- Every lot ever created for a token sums to the total acquisition
amount recorded for it. -/
theorem createdLots_amounts (prices : String → Option ℚ) (rate : ℚ) :
    ∀ (l : List Transaction) (tok : String),
      sumAmounts (createdLots prices rate l tok) = acquiredTotal l tok
  | [], tok => by
    rw [createdLots, acquiredTotal]
    simp [sumAmounts]
  | tx :: rest, tok => by
    rw [createdLots, acquiredTotal, sumAmounts_append, createdBy_amounts,
      createdLots_amounts prices rate rest tok]

/-- C8: conservation per token over any run of `calculateTaxes`'s
loop on the sorted records — the amounts of all lots ever created
equal the acquisition amounts recorded, and the remaining queue plus
the matched (actually consumed) disposal amounts equals the
acquisitions, exactly, in rational arithmetic. -/
theorem conservation (prices : String → Option ℚ) (rate : ℚ)
    (txs : List Transaction) (tok : String) :
    sumAmounts (createdLots prices rate (sortTransactions txs) tok) =
      acquiredTotal (sortTransactions txs) tok ∧
    sumAmounts ((runLedger prices rate initState (sortTransactions txs)).tokenLots tok) +
        matchedTotal prices rate initState (sortTransactions txs) tok =
      acquiredTotal (sortTransactions txs) tok := by
  refine ⟨createdLots_amounts prices rate (sortTransactions txs) tok, ?_⟩
  rw [runLedger_sumAmounts prices rate (sortTransactions txs) initState tok]
  have h0 : sumAmounts (initState.tokenLots tok) = 0 := by
    simp [initState, sumAmounts]
  rw [h0]
  ring

end Taxana
